import Mathlib

/-!
Verification development for the 麦生育マップ generator script
(generate_maps.py): incremental per-date caching of vegetation-index
pixel data, a history ledger, and layered map rendering.

Dates are the ISO strings "YYYY-MM-DD" produced by the script; their
lexicographic order coincides with calendar order.  Python dicts used as
string-keyed maps (the cache directory, the ledger sub-maps) are embedded
as association lists with the dict assignment and membership operations.
Reflectance and index values are embedded as rationals.
-/

namespace MugiMap

/-- Association-list lookup, the embedding of Python dict lookup /
`os.path.exists` on the cache directory keyed by date. -/
def lookupA {β : Type} (l : List (String × β)) (k : String) : Option β :=
  match l with
  | [] => none
  | (k', v) :: rest => if k' = k then some v else lookupA rest k

/-- Association-list update, the embedding of Python dict assignment
`d[k] = v` (and of writing the file named by key `k`): replaces the
binding of `k` when present, otherwise appends it. -/
def setA {β : Type} (l : List (String × β)) (k : String) (v : β) : List (String × β) :=
  match l with
  | [] => [(k, v)]
  | (k', v') :: rest => if k' = k then (k, v) :: rest else (k', v') :: setA rest k v

/-- One pixel record of a date cache file: latitude, longitude and the
three nullable index values (generate_maps.py lines 255-261). -/
structure PixelRecord where
  lat : ℚ
  lon : ℚ
  ndvi : Option ℚ
  ndwi : Option ℚ
  gndvi : Option ℚ
deriving DecidableEq

/-- One field record of a date cache file: identifier, address label,
boundary ring and pixel list (generate_maps.py lines 241-245). -/
structure FieldData where
  polygon_uu : Option String
  address : String
  boundary : List (ℚ × ℚ)
  pixels : List PixelRecord
deriving DecidableEq

/-- A per-date cache file: the date and its field records
(generate_maps.py lines 208-211). -/
structure DateCache where
  date : String
  fields : List FieldData
deriving DecidableEq

/-- The history ledger document `observation_history.json`: date list,
date-to-source-identifier map and date-to-pixel-count map
(generate_maps.py lines 106-110). -/
structure History where
  dates : List String
  date_to_index : List (String × String)
  pixel_counts : List (String × Nat)
deriving DecidableEq

/-- The empty ledger created when no ledger file exists
(generate_maps.py lines 105-110). -/
def emptyHistory : History := ⟨[], [], []⟩

/-- The three index types rendered as separate maps. -/
inductive IdxKind where
  | NDVI
  | NDWI
  | GNDVI
deriving DecidableEq

/-- One folium FeatureGroup: the map `FeatureGroup(name=f'KIND_date',
show=show_layer)` of generate_maps.py lines 306-308, with the name split
into its kind and date components. -/
structure Layer where
  kind : IdxKind
  date : String
  shown : Bool
deriving DecidableEq

/-- The data of the title block added to each map (generate_maps.py
lines 419-448): first and last ledger date, date count, field count,
total pixel count and the newest processed date `new_dates[-1]`. -/
structure Title where
  firstDate : String
  lastDate : String
  nDates : Nat
  nFields : Nat
  totalPixels : Nat
  newestDate : String
deriving DecidableEq

/-- One saved map HTML document, abstracted to its data content: the
layer list and the title block. -/
structure MapDoc where
  layers : List Layer
  title : Title
deriving DecidableEq

/-- The on-disk state touched by a run: the cache directory (one JSON
file per date), the ledger file, the three map HTML outputs and the
last-processed-date marker file `last_processed.txt`. -/
structure FS where
  cache : List (String × DateCache)
  ledger : Option History
  map_ndvi : Option MapDoc
  map_ndwi : Option MapDoc
  map_gndvi : Option MapDoc
  marker : Option String
deriving DecidableEq

/-- Properties of one sampled pixel feature, each band value possibly
absent (`props.get(...)`, generate_maps.py lines 258-260). -/
structure PixProps where
  NDVI : Option ℚ
  NDWI : Option ℚ
  GNDVI : Option ℚ
deriving DecidableEq

/-- One feature returned by the per-field sampling call: geometry
coordinates (lon, lat) and properties, either possibly empty or missing
(generate_maps.py lines 248-253). -/
structure PixelFeature where
  geometry : Option (ℚ × ℚ)
  properties : Option PixProps
deriving DecidableEq

/-- One field polygon feature from the remote asset: geometry type,
coordinate rings and the optional field identifier
(generate_maps.py lines 215-225). -/
structure FieldFeature where
  gtype : String
  coordinates : List (List (ℚ × ℚ))
  polygon_uu : Option String
deriving DecidableEq

/-- The sampling response: `none` when the response has no 'features'
key (generate_maps.py line 234), otherwise the feature list. -/
abbrev SampleData : Type := Option (List PixelFeature)

/-- The external inputs of one run: the force-rebuild flag, the imagery
query result (one (date, system:index) pair per returned image), the
field polygon list, the spreadsheet rows (polygon_uu, address), and the
per-field sampling oracle (date, source index, field), whose `.error`
case embeds a raised exception. -/
structure RunInput where
  force_rebuild : Bool
  geeImages : List (String × String)
  fieldsInfo : List FieldFeature
  fieldsDf : List (String × String)
  sample : String → String → FieldFeature → Except String SampleData

/-- The normalized-difference band operation of the imagery service.
Modelled from the spec: `image.normalizedDifference` is computed by the
external imagery API, not in this repository; the spec gives its
contract as (a−b)/(a+b), undefined (null) when the inputs sum to zero. -/
def normalizedDifference (a b : ℚ) : Option ℚ :=
  if a + b = 0 then none else some ((a - b) / (a + b))

/-- The reflectance bands of one pixel used by the index computation. -/
structure BandPixel where
  B3 : ℚ
  B4 : ℚ
  B8 : ℚ
  B11 : ℚ
deriving DecidableEq

/-- The index calculator `add_indices` (generate_maps.py lines 76-80):
NDVI from (B8, B4), NDWI from (B8, B11), GNDVI from (B8, B3). -/
def add_indices (p : BandPixel) : Option ℚ × Option ℚ × Option ℚ :=
  (normalizedDifference p.B8 p.B4,
   normalizedDifference p.B8 p.B11,
   normalizedDifference p.B8 p.B3)

/-- The NDVI colormap `get_ndvi_color` (generate_maps.py lines 159-170);
`none` embeds the None/NaN input. -/
def get_ndvi_color (ndvi : Option ℚ) : String :=
  match ndvi with
  | none => "#808080"
  | some v =>
    if v < 0.2 then "#d73027"
    else if v < 0.4 then "#fc8d59"
    else if v < 0.6 then "#fee08b"
    else if v < 0.8 then "#91cf60"
    else "#1a9850"

/-- The NDWI colormap `get_ndwi_color` (generate_maps.py lines 172-183). -/
def get_ndwi_color (ndwi : Option ℚ) : String :=
  match ndwi with
  | none => "#808080"
  | some v =>
    if v < -0.3 then "#8B4513"
    else if v < -0.1 then "#D2691E"
    else if v < 0.1 then "#F4A460"
    else if v < 0.3 then "#87CEEB"
    else "#4169E1"

/-- The GNDVI colormap `get_gndvi_color` (generate_maps.py lines 185-196). -/
def get_gndvi_color (gndvi : Option ℚ) : String :=
  match gndvi with
  | none => "#808080"
  | some v =>
    if v < 0.2 then "#FFFF00"
    else if v < 0.4 then "#9ACD32"
    else if v < 0.6 then "#32CD32"
    else if v < 0.8 then "#228B22"
    else "#006400"

/-- The outcome of processing one field polygon of one date, mirroring
the control flow of generate_maps.py lines 215-269. -/
inductive FieldOutcome where
  | notPolygon
  | noFeatures
  | sampleError (msg : String)
  | ok (fd : FieldData) (pixel_count : Nat)
deriving DecidableEq

/-- Address lookup in the spreadsheet rows: the first row matching the
field identifier, or 不明 when none matches (generate_maps.py
lines 220-221). -/
def addressFor (fieldsDf : List (String × String)) (uu : Option String) : String :=
  match fieldsDf.find? (fun p => some p.1 = uu) with
  | some p => p.2
  | none => "不明"

/-- Processing of one field polygon for one date (generate_maps.py
lines 215-269): skip non-polygon geometries; sample the field, an
exception being caught; skip responses without a 'features' key; build
the field record, dropping sampled features that lack geometry or
properties, and count all sampled features.  Indexing the first
coordinate ring of an empty ring list raises inside the try block and is
caught like a sampling error. -/
def processField (ri : RunInput) (date idx : String) (f : FieldFeature) : FieldOutcome :=
  if f.gtype ≠ "Polygon" then .notPolygon
  else
    match ri.sample date idx f with
    | .error e => .sampleError e
    | .ok none => .noFeatures
    | .ok (some feats) =>
      match f.coordinates.head? with
      | none => .sampleError "IndexError"
      | some ring =>
        let pixels := feats.filterMap (fun pf =>
          match pf.geometry, pf.properties with
          | some lonlat, some props =>
            some ⟨lonlat.2, lonlat.1, props.NDVI, props.NDWI, props.GNDVI⟩
          | _, _ => none)
        .ok ⟨f.polygon_uu, addressFor ri.fieldsDf f.polygon_uu, ring, pixels⟩ feats.length

/-- Effect of one field outcome on the accumulated (field records,
`date_pixels`) pair: a successful field prepends its record and adds its
sampled-feature count; a skipped or failed field changes nothing
(generate_maps.py lines 234-269). -/
def appendOutcome (o : FieldOutcome) (r : List FieldData × Nat) : List FieldData × Nat :=
  match o with
  | .ok fd n => (fd :: r.1, n + r.2)
  | .notPolygon => r
  | .noFeatures => r
  | .sampleError _ => r

/-- The per-date field loop (generate_maps.py lines 213-264):
accumulates the field records of successful fields in order and the
running total `date_pixels` of sampled-feature counts. -/
def processFields (ri : RunInput) (date idx : String) :
    List FieldFeature → List FieldData × Nat
  | [] => ([], 0)
  | f :: rest =>
    appendOutcome (processField ri date idx f) (processFields ri date idx rest)

/-- Processing of one new date (generate_maps.py lines 201-264): the
date cache record and the `date_pixels` total. -/
def processDate (ri : RunInput) (date idx : String) : DateCache × Nat :=
  let r := processFields ri date idx ri.fieldsInfo
  (⟨date, r.1⟩, r.2)

/-- The dict `all_dates_from_gee` built from the imagery query result
(generate_maps.py lines 117-126), later assignments to the same date
winning as in Python. -/
def allDatesFromGee (ri : RunInput) : List (String × String) :=
  ri.geeImages.foldl (fun m p => setA m p.1 p.2) []

/-- Code-point comparison of character lists: the lexicographic order
Python uses to compare strings. -/
def charListLe : List Char → List Char → Bool
  | [], _ => true
  | _ :: _, [] => false
  | c :: cs, d :: ds =>
    if c.toNat < d.toNat then true
    else if d.toNat < c.toNat then false
    else charListLe cs ds

/-- Python string comparison a <= b, by code point. -/
def strLe (a b : String) : Bool := charListLe a.data b.data

/-- Python string comparison a < b, by code point. -/
def strLt (a b : String) : Bool := !(strLe b a)

/-- Lexicographic pair order used by Python `sorted` on dict items. -/
def pairLe (p q : String × String) : Prop :=
  strLt p.1 q.1 = true ∨ (p.1 = q.1 ∧ strLe p.2 q.2 = true)

instance : DecidableRel pairLe := fun p q => by
  unfold pairLe; infer_instance

/-- The sorted dict items `sorted(all_dates_from_gee.items())` of generate_maps.py line 132. -/
def sortedGeeItems (ri : RunInput) : List (String × String) :=
  (allDatesFromGee ri).insertionSort pairLe

/-- The ledger loaded at the start of a run, an empty one when the
ledger file does not exist (generate_maps.py lines 100-111). -/
def loadedHistory (fs : FS) : History :=
  fs.ledger.getD emptyHistory

/-- The partition loop over the sorted available dates (generate_maps.py
lines 129-141): a date goes to `new_dates` when the force flag is set or
its cache file does not exist, recording its source identifier in the
ledger map; otherwise it goes to `existing_dates`, its identifier being
recorded only when absent.  Returns (new_dates, existing_dates, updated
history). -/
def partitionDates (force : Bool) (cache : List (String × DateCache)) :
    History → List (String × String) → List String × List String × History
  | h, [] => ([], [], h)
  | h, (date_str, idx) :: rest =>
    if force = true ∨ lookupA cache date_str = none then
      let r := partitionDates force cache
        { h with date_to_index := setA h.date_to_index date_str idx } rest
      (date_str :: r.1, r.2.1, r.2.2)
    else
      let h' := if lookupA h.date_to_index date_str = none then
          { h with date_to_index := setA h.date_to_index date_str idx }
        else h
      let r := partitionDates force cache h' rest
      (r.1, date_str :: r.2.1, r.2.2)

/-- The partition computed by a run from its inputs and initial disk
state. -/
def partitioned (ri : RunInput) (fs0 : FS) : List String × List String × History :=
  partitionDates ri.force_rebuild fs0.cache (loadedHistory fs0) (sortedGeeItems ri)

/-- The `new_dates` list of a run. -/
def newDatesOf (ri : RunInput) (fs0 : FS) : List String :=
  (partitioned ri fs0).1

/-- The `existing_dates` list of a run. -/
def existingDatesOf (ri : RunInput) (fs0 : FS) : List String :=
  (partitioned ri fs0).2.1

/-- One iteration of the new-date processing loop (generate_maps.py
lines 201-278): process the date, write its cache file, append the date
to the ledger's date list when absent, and record its pixel count. -/
def stepDate (ri : RunInput) (acc : FS × History) (date : String) : FS × History :=
  let idx := (lookupA acc.2.date_to_index date).getD ""
  let r := processDate ri date idx
  ({ acc.1 with cache := setA acc.1.cache date r.1 },
   { acc.2 with
      dates := if date ∈ acc.2.dates then acc.2.dates else acc.2.dates ++ [date],
      pixel_counts := setA acc.2.pixel_counts date r.2 })

/-- The new-date processing loop (generate_maps.py lines 201-278). -/
def processDatesFold (ri : RunInput) : FS × History → List String → FS × History
  | st, [] => st
  | st, date :: rest => processDatesFold ri (stepDate ri st date) rest

/-- The sorted ledger date list `sorted(history['dates'])` of generate_maps.py lines 289 and 416. -/
def sortStr (l : List String) : List String :=
  l.insertionSort (fun a b => strLe a b = true)

/-- The layer-building loop of one map (generate_maps.py lines 292-308):
one FeatureGroup per ledger date whose cache file exists, shown by
default exactly when the date equals the last entry of the sorted ledger
date list; dates without a cache file are skipped with a warning. -/
def buildLayers (kind : IdxKind) (all_dates : List String)
    (cache : List (String × DateCache)) : List Layer :=
  all_dates.filterMap (fun date =>
    if (lookupA cache date).isSome then
      some ⟨kind, date, decide (all_dates.getLast? = some date)⟩
    else none)

/-- The total `sum(history['pixel_counts'].values())` of generate_maps.py line 417. -/
def totalPixelsOf (h : History) : Nat :=
  (h.pixel_counts.map Prod.snd).sum

/-- The title block of each map (generate_maps.py lines 419-448):
`none` embeds the unhandled IndexError raised by `all_dates[0]`,
`all_dates[-1]` or `new_dates[-1]` when the indexed list is empty. -/
def buildTitle (all_dates new_dates : List String) (nFields total_pixels : Nat) :
    Option Title :=
  match all_dates.head?, all_dates.getLast?, new_dates.getLast? with
  | some f, some l, some n => some ⟨f, l, all_dates.length, nFields, total_pixels, n⟩
  | _, _, _ => none

/-- How a run of the script ends, carrying the on-disk state at that
point: normal exit(0) when no image is found (line 93) or no new date is
found (line 146), the unhandled IndexError of the title build, or normal
completion. -/
inductive RunResult where
  | earlyExitNoImages (fs : FS)
  | earlyExitNoNewDates (fs : FS)
  | indexError (fs : FS)
  | completed (fs : FS)
deriving DecidableEq

/-- The on-disk state a run leaves behind. -/
def resultFS : RunResult → FS
  | .earlyExitNoImages fs => fs
  | .earlyExitNoNewDates fs => fs
  | .indexError fs => fs
  | .completed fs => fs

/-- The in-memory state after the new-date processing loop: the updated
cache directory together with the merged ledger. -/
def afterProcessing (ri : RunInput) (fs0 : FS) : FS × History :=
  processDatesFold ri (fs0, (partitioned ri fs0).2.2) (newDatesOf ri fs0)

/-- The sorted ledger date list `all_dates` used by the renderer and the
title block (generate_maps.py lines 289 and 416). -/
def allSorted (ri : RunInput) (fs0 : FS) : List String :=
  sortStr (afterProcessing ri fs0).2.dates

/-- One run of generate_maps.py after successful service initialization:
query, early exits, partition, per-date processing with cache writes,
layer building, title building (where indexing an empty list raises),
and finally the saves of the three maps, the ledger and the marker
file. -/
def run (ri : RunInput) (fs0 : FS) : RunResult :=
  if ri.geeImages.length = 0 ∧ ri.force_rebuild = false then
    .earlyExitNoImages fs0
  else if newDatesOf ri fs0 = [] ∧ ri.force_rebuild = false then
    .earlyExitNoNewDates fs0
  else
    match buildTitle (allSorted ri fs0) (newDatesOf ri fs0) ri.fieldsInfo.length
        (totalPixelsOf (afterProcessing ri fs0).2) with
    | none => .indexError (afterProcessing ri fs0).1
    | some t =>
      .completed { (afterProcessing ri fs0).1 with
        map_ndvi := some ⟨buildLayers .NDVI (allSorted ri fs0) (afterProcessing ri fs0).1.cache, t⟩
        map_ndwi := some ⟨buildLayers .NDWI (allSorted ri fs0) (afterProcessing ri fs0).1.cache, t⟩
        map_gndvi := some ⟨buildLayers .GNDVI (allSorted ri fs0) (afterProcessing ri fs0).1.cache, t⟩
        ledger := some (afterProcessing ri fs0).2
        marker := if newDatesOf ri fs0 ≠ [] then some ((newDatesOf ri fs0).getLast?.getD "")
                  else (afterProcessing ri fs0).1.marker }

/-- The consistency invariant of §3/§8 of the spec: every date in the
ledger's date list has a cache file on disk. -/
def ledgerCacheInv (fs : FS) : Prop :=
  ∀ d ∈ (loadedHistory fs).dates, (lookupA fs.cache d).isSome

instance (fs : FS) : Decidable (ledgerCacheInv fs) := by
  unfold ledgerCacheInv; infer_instance

/-- Specification measure: the number of sampled features the field loop
counts for one field (generate_maps.py lines 238 and 264), namely the
length of the sampling response's feature list when the field is a
polygon, the sampling call succeeds with a 'features' key, and building
the record does not raise; 0 otherwise. -/
def sampledCount (ri : RunInput) (date idx : String) (f : FieldFeature) : Nat :=
  if f.gtype ≠ "Polygon" then 0
  else
    match ri.sample date idx f with
    | .ok (some feats) => if f.coordinates.head? = none then 0 else feats.length
    | _ => 0

/-- Specification measure: the number of pixel records actually stored
in a date cache record. -/
def storedPixels (dc : DateCache) : Nat :=
  (dc.fields.map (fun fd => fd.pixels.length)).sum

/-- The sampled-feature count one field outcome contributes to
`date_pixels` (generate_maps.py line 264). -/
def outcomeCount : FieldOutcome → Nat
  | .ok _ n => n
  | .notPolygon => 0
  | .noFeatures => 0
  | .sampleError _ => 0

/-- Example cache record used by concrete witnesses. -/
def dcEx : DateCache := ⟨"2026-01-05", []⟩

/-- Example sampled feature with geometry and properties. -/
def pfGood : PixelFeature := ⟨some (131, 33), some ⟨some (1/2), some (1/10), some (2/5)⟩⟩

/-- Example sampled feature lacking geometry: dropped from the cache
record but still counted. -/
def pfNoGeom : PixelFeature := ⟨none, some ⟨some (1/2), none, none⟩⟩

/-- Example field polygon whose sampling succeeds. -/
def fEx : FieldFeature := ⟨"Polygon", [[(131, 33), (131, 34), (132, 33)]], some "uu1"⟩

/-- Example field polygon whose sampling raises. -/
def fFail : FieldFeature := ⟨"Polygon", [[(131, 33), (131, 34), (132, 33)]], some "uu2"⟩

/-- Example sampling oracle: raises on the second field, returns two
features (one without geometry) on every other field. -/
def sampleEx : String → String → FieldFeature → Except String SampleData :=
  fun _ _ f =>
    if f.polygon_uu = some "uu2" then .error "HTTPError"
    else .ok (some [pfGood, pfNoGeom])

/-- Example run input: one available image, two fields, no force flag. -/
def riEx : RunInput :=
  ⟨false, [("2026-01-05", "20260105T013059_20260105T013055_T52SGB")],
   [fEx, fFail], [("uu1", "新庄A"), ("uu2", "新庄B")], sampleEx⟩

/-- Example run input with the force flag set and an empty imagery query
result. -/
def riExForce : RunInput := { riEx with force_rebuild := true, geeImages := [] }

/-- Example empty initial disk state. -/
def fs0Empty : FS := ⟨[], none, none, none, none, none⟩

/-- Example initial disk state whose cache and ledger already hold the
one available date. -/
def fs0Cached : FS :=
  ⟨[("2026-01-05", dcEx)],
   some ⟨["2026-01-05"], [("2026-01-05", "20260105T013059_20260105T013055_T52SGB")],
         [("2026-01-05", 2)]⟩,
   none, none, none, none⟩

/-! Helper lemmas about association-list lookup and update. -/

theorem lookupA_setA_self {β : Type} (l : List (String × β)) (k : String) (v : β) :
    lookupA (setA l k v) k = some v := by
  induction l with
  | nil => simp [setA, lookupA]
  | cons p rest ih =>
    by_cases h : p.1 = k
    · simp [setA, h, lookupA]
    · simp [setA, h, lookupA, ih]

theorem lookupA_setA_ne {β : Type} (l : List (String × β)) (k k' : String) (v : β)
    (h : k ≠ k') : lookupA (setA l k v) k' = lookupA l k' := by
  induction l with
  | nil => simp [setA, lookupA, h]
  | cons p rest ih =>
    by_cases hp : p.1 = k
    · simp [setA, hp, lookupA, h]
    · simp [setA, hp, lookupA, ih]

theorem isSome_lookupA_setA {β : Type} (l : List (String × β)) (k k' : String) (v : β)
    (h : (lookupA l k').isSome) : (lookupA (setA l k v) k').isSome := by
  by_cases hk : k = k'
  · subst hk; rw [lookupA_setA_self]; rfl
  · rwa [lookupA_setA_ne l k k' v hk]

/-! The index calculator. -/

/-- C5: each of the three indices is the normalized difference
(a−b)/(a+b) of its band pair (NDVI from B8/B4, NDWI from B8/B11, GNDVI
from B8/B3); for nonnegative reflectances with a+b ≠ 0 the value lies in
[-1, 1], and when both inputs are zero the value is null. -/
theorem index_range (a b : ℚ) (ha : 0 ≤ a) (hb : 0 ≤ b) :
    (a + b ≠ 0 → ∃ v, normalizedDifference a b = some v ∧ -1 ≤ v ∧ v ≤ 1) ∧
    (a = 0 → b = 0 → normalizedDifference a b = none) ∧
    (∀ p : BandPixel, add_indices p =
      (normalizedDifference p.B8 p.B4, normalizedDifference p.B8 p.B11,
       normalizedDifference p.B8 p.B3)) := by
  refine ⟨fun hab => ?_, fun h0a h0b => ?_, fun p => rfl⟩
  · have hpos : 0 < a + b := lt_of_le_of_ne (by positivity) (Ne.symm hab)
    refine ⟨(a - b) / (a + b), by simp [normalizedDifference, hab], ?_, ?_⟩
    · rw [neg_le, ← neg_div, div_le_one hpos]; linarith
    · rw [div_le_one hpos]; linarith
  · simp [normalizedDifference, h0a, h0b]

/-- Witness for index_range at the concrete reflectance pair (3, 1). -/
theorem index_range_witness :
    ∃ v, normalizedDifference 3 1 = some v ∧ -1 ≤ v ∧ v ≤ 1 :=
  (index_range 3 1 (by norm_num) (by norm_num)).1 (by norm_num)

/-! The colormaps. -/

/-- C7: the five color buckets of each index colormap are
lower-inclusive and upper-exclusive; in particular NDVI exactly 0.2 is
colored '#fc8d59' (the やや低 bucket), not '#d73027'. -/
theorem color_bucket_boundaries (x : ℚ) :
    (get_ndvi_color (some (0.2 : ℚ)) = "#fc8d59") ∧
    (x < 0.2 → get_ndvi_color (some x) = "#d73027") ∧
    (0.2 ≤ x → x < 0.4 → get_ndvi_color (some x) = "#fc8d59") ∧
    (0.4 ≤ x → x < 0.6 → get_ndvi_color (some x) = "#fee08b") ∧
    (0.6 ≤ x → x < 0.8 → get_ndvi_color (some x) = "#91cf60") ∧
    (0.8 ≤ x → get_ndvi_color (some x) = "#1a9850") ∧
    (x < -0.3 → get_ndwi_color (some x) = "#8B4513") ∧
    (-0.3 ≤ x → x < -0.1 → get_ndwi_color (some x) = "#D2691E") ∧
    (-0.1 ≤ x → x < 0.1 → get_ndwi_color (some x) = "#F4A460") ∧
    (0.1 ≤ x → x < 0.3 → get_ndwi_color (some x) = "#87CEEB") ∧
    (0.3 ≤ x → get_ndwi_color (some x) = "#4169E1") ∧
    (x < 0.2 → get_gndvi_color (some x) = "#FFFF00") ∧
    (0.2 ≤ x → x < 0.4 → get_gndvi_color (some x) = "#9ACD32") ∧
    (0.4 ≤ x → x < 0.6 → get_gndvi_color (some x) = "#32CD32") ∧
    (0.6 ≤ x → x < 0.8 → get_gndvi_color (some x) = "#228B22") ∧
    (0.8 ≤ x → get_gndvi_color (some x) = "#006400") := by
  refine ⟨by norm_num [get_ndvi_color],
    ?_, ?_, ?_, ?_, ?_, ?_, ?_, ?_, ?_, ?_, ?_, ?_, ?_, ?_, ?_⟩ <;>
      intros <;>
      simp only [get_ndvi_color, get_ndwi_color, get_gndvi_color] <;>
      split_ifs <;> first | rfl | (exfalso; linarith)

/-- Witness for color_bucket_boundaries: NDVI 0.2 and NDWI -0.3 land in
their upper buckets. -/
theorem color_bucket_boundaries_witness :
    get_ndvi_color (some (0.2 : ℚ)) = "#fc8d59" ∧
    get_ndwi_color (some (-0.3 : ℚ)) = "#D2691E" :=
  ⟨(color_bucket_boundaries 0).1,
   (color_bucket_boundaries (-0.3)).2.2.2.2.2.2.2.1 (by norm_num) (by norm_num)⟩

/-! The cache/history partition. -/

theorem partition_new_mem (force : Bool) (cache : List (String × DateCache)) :
    ∀ (items : List (String × String)) (h : History) (d : String),
      d ∈ (partitionDates force cache h items).1 ↔
        d ∈ items.map Prod.fst ∧ (force = true ∨ lookupA cache d = none) := by
  intro items
  induction items with
  | nil => intro h d; simp [partitionDates]
  | cons p rest ih =>
    intro h d
    obtain ⟨ds, idx⟩ := p
    by_cases hc : force = true ∨ lookupA cache ds = none
    · rw [partitionDates, if_pos hc]
      simp only [List.mem_cons, List.map_cons, ih]
      constructor
      · rintro (rfl | ⟨hm, hcond⟩)
        · exact ⟨Or.inl rfl, hc⟩
        · exact ⟨Or.inr hm, hcond⟩
      · rintro ⟨rfl | hm, hcond⟩
        · exact Or.inl rfl
        · exact Or.inr ⟨hm, hcond⟩
    · rw [partitionDates, if_neg hc]
      simp only [List.map_cons, List.mem_cons, ih]
      constructor
      · rintro ⟨hm, hcond⟩
        exact ⟨Or.inr hm, hcond⟩
      · rintro ⟨rfl | hm, hcond⟩
        · exact absurd hcond hc
        · exact ⟨hm, hcond⟩

theorem partition_existing_mem (force : Bool) (cache : List (String × DateCache)) :
    ∀ (items : List (String × String)) (h : History) (d : String),
      d ∈ (partitionDates force cache h items).2.1 ↔
        d ∈ items.map Prod.fst ∧ ¬(force = true ∨ lookupA cache d = none) := by
  intro items
  induction items with
  | nil => intro h d; simp [partitionDates]
  | cons p rest ih =>
    intro h d
    obtain ⟨ds, idx⟩ := p
    by_cases hc : force = true ∨ lookupA cache ds = none
    · rw [partitionDates, if_pos hc]
      simp only [List.map_cons, List.mem_cons, ih]
      constructor
      · rintro ⟨hm, hcond⟩
        exact ⟨Or.inr hm, hcond⟩
      · rintro ⟨rfl | hm, hcond⟩
        · exact absurd hc hcond
        · exact ⟨hm, hcond⟩
    · rw [partitionDates, if_neg hc]
      simp only [List.mem_cons, List.map_cons, ih]
      constructor
      · rintro (rfl | ⟨hm, hcond⟩)
        · exact ⟨Or.inl rfl, hc⟩
        · exact ⟨Or.inr hm, hcond⟩
      · rintro ⟨rfl | hm, hcond⟩
        · exact Or.inl rfl
        · exact Or.inr ⟨hm, hcond⟩

/-- C1: the partition loop puts an available date into new_dates exactly
when the force flag is set or the date has no cache file, into
existing_dates exactly otherwise, and every available date lands in
exactly one of the two lists. -/
theorem partition_dates_partitions (force : Bool) (cache : List (String × DateCache))
    (h : History) (items : List (String × String)) (d : String) :
    (d ∈ (partitionDates force cache h items).1 ↔
       d ∈ items.map Prod.fst ∧ (force = true ∨ lookupA cache d = none)) ∧
    (d ∈ (partitionDates force cache h items).2.1 ↔
       d ∈ items.map Prod.fst ∧ ¬(force = true ∨ lookupA cache d = none)) ∧
    (d ∈ items.map Prod.fst →
       (d ∈ (partitionDates force cache h items).1 ∧
        d ∉ (partitionDates force cache h items).2.1) ∨
       (d ∉ (partitionDates force cache h items).1 ∧
        d ∈ (partitionDates force cache h items).2.1)) := by
  refine ⟨partition_new_mem force cache items h d,
          partition_existing_mem force cache items h d, fun hm => ?_⟩
  by_cases hc : force = true ∨ lookupA cache d = none
  · left
    refine ⟨(partition_new_mem force cache items h d).2 ⟨hm, hc⟩, fun hex => ?_⟩
    exact ((partition_existing_mem force cache items h d).1 hex).2 hc
  · right
    refine ⟨fun hnew => ?_, (partition_existing_mem force cache items h d).2 ⟨hm, hc⟩⟩
    exact hc ((partition_new_mem force cache items h d).1 hnew).2

/-- Witness for partition_dates_partitions: with the force flag unset, a
cached available date lands in existing_dates and not in new_dates. -/
theorem partition_dates_partitions_witness :
    "2026-01-05" ∉ (partitionDates false fs0Cached.cache (loadedHistory fs0Cached)
        (sortedGeeItems riEx)).1 ∧
    "2026-01-05" ∈ (partitionDates false fs0Cached.cache (loadedHistory fs0Cached)
        (sortedGeeItems riEx)).2.1 := by
  have hm : "2026-01-05" ∈ (sortedGeeItems riEx).map Prod.fst := by decide
  rcases (partition_dates_partitions false fs0Cached.cache (loadedHistory fs0Cached)
      (sortedGeeItems riEx) "2026-01-05").2.2 hm with ⟨hn, _⟩ | ⟨hn, he⟩
  · exact absurd ((partition_dates_partitions false fs0Cached.cache (loadedHistory fs0Cached)
      (sortedGeeItems riEx) "2026-01-05").1.1 hn).2 (by decide)
  · exact ⟨hn, he⟩

/-! Lemmas about the new-date processing loop. -/

theorem stepDate_ledger (ri : RunInput) (st : FS × History) (d : String) :
    (stepDate ri st d).1.ledger = st.1.ledger := rfl

theorem stepDate_dti (ri : RunInput) (st : FS × History) (d : String) :
    (stepDate ri st d).2.date_to_index = st.2.date_to_index := rfl

theorem fold_ledger (ri : RunInput) :
    ∀ (nds : List String) (st : FS × History),
      (processDatesFold ri st nds).1.ledger = st.1.ledger := by
  intro nds
  induction nds with
  | nil => intro st; rfl
  | cons d rest ih => intro st; rw [processDatesFold, ih, stepDate_ledger]

theorem fold_dti (ri : RunInput) :
    ∀ (nds : List String) (st : FS × History),
      (processDatesFold ri st nds).2.date_to_index = st.2.date_to_index := by
  intro nds
  induction nds with
  | nil => intro st; rfl
  | cons d rest ih => intro st; rw [processDatesFold, ih, stepDate_dti]

theorem fold_cache_not_mem (ri : RunInput) (d : String) :
    ∀ (nds : List String) (st : FS × History), d ∉ nds →
      lookupA (processDatesFold ri st nds).1.cache d = lookupA st.1.cache d := by
  intro nds
  induction nds with
  | nil => intro st _; rfl
  | cons d0 rest ih =>
    intro st hd
    have hne : d0 ≠ d := fun h => hd (h ▸ List.mem_cons_self d0 rest)
    rw [processDatesFold, ih _ (fun h => hd (List.mem_cons_of_mem d0 h))]
    exact lookupA_setA_ne st.1.cache d0 d _ hne

theorem fold_pc_not_mem (ri : RunInput) (d : String) :
    ∀ (nds : List String) (st : FS × History), d ∉ nds →
      lookupA (processDatesFold ri st nds).2.pixel_counts d =
        lookupA st.2.pixel_counts d := by
  intro nds
  induction nds with
  | nil => intro st _; rfl
  | cons d0 rest ih =>
    intro st hd
    have hne : d0 ≠ d := fun h => hd (h ▸ List.mem_cons_self d0 rest)
    rw [processDatesFold, ih _ (fun h => hd (List.mem_cons_of_mem d0 h))]
    exact lookupA_setA_ne st.2.pixel_counts d0 d _ hne

theorem fold_cache_isSome_mono (ri : RunInput) (d : String) :
    ∀ (nds : List String) (st : FS × History),
      (lookupA st.1.cache d).isSome →
        (lookupA (processDatesFold ri st nds).1.cache d).isSome := by
  intro nds
  induction nds with
  | nil => intro st h; exact h
  | cons d0 rest ih =>
    intro st h
    rw [processDatesFold]
    exact ih _ (isSome_lookupA_setA st.1.cache d0 d _ h)

theorem fold_inv (ri : RunInput) :
    ∀ (nds : List String) (st : FS × History),
      (∀ e ∈ st.2.dates, (lookupA st.1.cache e).isSome) →
      ∀ e ∈ (processDatesFold ri st nds).2.dates,
        (lookupA (processDatesFold ri st nds).1.cache e).isSome := by
  intro nds
  induction nds with
  | nil => intro st h; exact h
  | cons d0 rest ih =>
    intro st h
    rw [processDatesFold]
    refine ih _ ?_
    intro e he
    have hdates : (stepDate ri st d0).2.dates =
        if d0 ∈ st.2.dates then st.2.dates else st.2.dates ++ [d0] := rfl
    rw [hdates] at he
    by_cases hd0 : d0 ∈ st.2.dates
    · rw [if_pos hd0] at he
      exact isSome_lookupA_setA st.1.cache d0 e _ (h e he)
    · rw [if_neg hd0] at he
      rcases List.mem_append.1 he with he' | he'
      · exact isSome_lookupA_setA st.1.cache d0 e _ (h e he')
      · have he2 : e = d0 := by simpa using he'
        rw [he2, show (stepDate ri st d0).1.cache =
          setA st.1.cache d0 (processDate ri d0
            ((lookupA st.2.date_to_index d0).getD "")).1 from rfl,
          lookupA_setA_self]
        rfl

/-! Idempotence of re-running without the force flag. -/

/-- C2: with the force flag unset, a date whose cache file exists is not
placed in new_dates (it is never reprocessed), and its cache file is
byte-for-byte unchanged after the run, whichever way the run ends. -/
theorem rerun_preserves_existing_cache (ri : RunInput) (fs0 : FS) (d : String)
    (dc : DateCache) (hforce : ri.force_rebuild = false)
    (hcache : lookupA fs0.cache d = some dc) :
    d ∉ newDatesOf ri fs0 ∧
    lookupA (resultFS (run ri fs0)).cache d = some dc := by
  have hnot : d ∉ newDatesOf ri fs0 := by
    intro hmem
    rcases ((partition_new_mem ri.force_rebuild fs0.cache (sortedGeeItems ri)
        (loadedHistory fs0) d).1 hmem).2 with hf | hn
    · rw [hforce] at hf; cases hf
    · rw [hcache] at hn; cases hn
  have hfold : lookupA (afterProcessing ri fs0).1.cache d = some dc := by
    rw [afterProcessing, fold_cache_not_mem ri d _ _ hnot]
    exact hcache
  refine ⟨hnot, ?_⟩
  rw [run]
  by_cases h1 : ri.geeImages.length = 0 ∧ ri.force_rebuild = false
  · rw [if_pos h1]; exact hcache
  · rw [if_neg h1]
    by_cases h2 : newDatesOf ri fs0 = [] ∧ ri.force_rebuild = false
    · rw [if_pos h2]; exact hcache
    · rw [if_neg h2]
      rcases ht : buildTitle (allSorted ri fs0) (newDatesOf ri fs0) ri.fieldsInfo.length
          (totalPixelsOf (afterProcessing ri fs0).2) with _ | t
      · simp only [resultFS]; exact hfold
      · simp only [resultFS]; exact hfold

/-- Witness for rerun_preserves_existing_cache on the example state
whose cache already holds the one available date. -/
theorem rerun_preserves_existing_cache_witness :
    "2026-01-05" ∉ newDatesOf riEx fs0Cached ∧
    lookupA (resultFS (run riEx fs0Cached)).cache "2026-01-05" = some dcEx :=
  rerun_preserves_existing_cache riEx fs0Cached "2026-01-05" dcEx rfl (by decide)

/-! The early exits. -/

/-- C3: when no new date is found and the force flag is unset, the run
ends in one of the two early exits, each leaving the on-disk state (the
ledger file, all cache files, the three map outputs and the marker file)
exactly as it was. -/
theorem early_exit_leaves_state_unchanged (ri : RunInput) (fs0 : FS)
    (hforce : ri.force_rebuild = false) (hnew : newDatesOf ri fs0 = []) :
    run ri fs0 = .earlyExitNoImages fs0 ∨ run ri fs0 = .earlyExitNoNewDates fs0 := by
  rw [run]
  by_cases h1 : ri.geeImages.length = 0 ∧ ri.force_rebuild = false
  · left; rw [if_pos h1]
  · right; rw [if_neg h1, if_pos ⟨hnew, hforce⟩]

/-- Witness for early_exit_leaves_state_unchanged: the example run whose
one available date is already cached exits early, leaving the state
untouched. -/
theorem early_exit_leaves_state_unchanged_witness :
    run riEx fs0Cached = .earlyExitNoImages fs0Cached ∨
    run riEx fs0Cached = .earlyExitNoNewDates fs0Cached :=
  early_exit_leaves_state_unchanged riEx fs0Cached rfl (by decide)

/-! The force-rebuild IndexError. -/

/-- C9: with the force flag set and an imagery query returning zero
images, both early-exit checks are bypassed and the run aborts with the
unhandled IndexError of the title build (new_dates[-1] on an empty list,
or all_dates[0] when the ledger is also empty), before any map, ledger
or marker write. -/
theorem force_rebuild_empty_query_index_error (ri : RunInput) (fs0 : FS)
    (hforce : ri.force_rebuild = true) (hgee : ri.geeImages = []) :
    run ri fs0 = .indexError fs0 := by
  have hnew : newDatesOf ri fs0 = [] := by
    rw [newDatesOf, partitioned, sortedGeeItems, allDatesFromGee, hgee]
    rfl
  have hafter : afterProcessing ri fs0 = (fs0, (partitioned ri fs0).2.2) := by
    rw [afterProcessing, hnew]
    rfl
  have htitle : buildTitle (allSorted ri fs0) (newDatesOf ri fs0) ri.fieldsInfo.length
      (totalPixelsOf (afterProcessing ri fs0).2) = none := by
    rw [hnew, buildTitle]
    rcases (allSorted ri fs0).head? with _ | f <;>
      rcases (allSorted ri fs0).getLast? with _ | l <;> rfl
  rw [run, if_neg (by rw [hforce]; rintro ⟨_, h⟩; cases h),
      if_neg (by rw [hforce]; rintro ⟨_, h⟩; cases h), htitle, hafter]

/-- Witness for force_rebuild_empty_query_index_error at the concrete
forced run with an empty query result. -/
theorem force_rebuild_empty_query_index_error_witness :
    run riExForce fs0Empty = .indexError fs0Empty :=
  force_rebuild_empty_query_index_error riExForce fs0Empty rfl rfl

/-! The ledger/cache consistency invariant. -/

theorem partition_hist_dates (force : Bool) (cache : List (String × DateCache)) :
    ∀ (items : List (String × String)) (h : History),
      (partitionDates force cache h items).2.2.dates = h.dates := by
  intro items
  induction items with
  | nil => intro h; rfl
  | cons p rest ih =>
    intro h
    obtain ⟨ds, idx⟩ := p
    by_cases hc : force = true ∨ lookupA cache ds = none
    · rw [partitionDates, if_pos hc]
      exact ih _
    · rw [partitionDates, if_neg hc, ih _]
      by_cases hd : lookupA h.date_to_index ds = none
      · rw [if_pos hd]
      · rw [if_neg hd]

/-- C4: if every date of the ledger loaded at the start of a run has a
cache file, the same holds of the state the run leaves behind: a date is
appended to the ledger's date list only after its cache file is written,
and the run never deletes cache files or ledger dates. -/
theorem ledger_cache_invariant_preserved (ri : RunInput) (fs0 : FS)
    (hinv : ledgerCacheInv fs0) : ledgerCacheInv (resultFS (run ri fs0)) := by
  have hdates : (partitioned ri fs0).2.2.dates = (loadedHistory fs0).dates :=
    partition_hist_dates ri.force_rebuild fs0.cache (sortedGeeItems ri) (loadedHistory fs0)
  have hres : ∀ e ∈ (afterProcessing ri fs0).2.dates,
      (lookupA (afterProcessing ri fs0).1.cache e).isSome := by
    rw [afterProcessing]
    refine fold_inv ri (newDatesOf ri fs0) (fs0, (partitioned ri fs0).2.2) ?_
    intro e he
    refine hinv e ?_
    rw [← hdates]
    exact he
  rw [run]
  by_cases h1 : ri.geeImages.length = 0 ∧ ri.force_rebuild = false
  · rw [if_pos h1]; exact hinv
  · rw [if_neg h1]
    by_cases h2 : newDatesOf ri fs0 = [] ∧ ri.force_rebuild = false
    · rw [if_pos h2]; exact hinv
    · rw [if_neg h2]
      rcases ht : buildTitle (allSorted ri fs0) (newDatesOf ri fs0) ri.fieldsInfo.length
          (totalPixelsOf (afterProcessing ri fs0).2) with _ | t
      · simp only [resultFS]
        intro e he
        have hled : (afterProcessing ri fs0).1.ledger = fs0.ledger := by
          rw [afterProcessing]; exact fold_ledger ri _ _
        rw [loadedHistory, hled] at he
        have h0 : (lookupA fs0.cache e).isSome := hinv e he
        rw [afterProcessing]
        exact fold_cache_isSome_mono ri e _ _ h0
      · simp only [resultFS]
        intro e he
        exact hres e he

/-- Witness for ledger_cache_invariant_preserved at the example cached
state, whose ledger date has a cache file. -/
theorem ledger_cache_invariant_preserved_witness :
    ledgerCacheInv (resultFS (run riEx fs0Cached)) :=
  ledger_cache_invariant_preserved riEx fs0Cached (by decide)

/-! Per-field error recovery. -/

theorem processFields_append (ri : RunInput) (d i : String) (l1 l2 : List FieldFeature) :
    processFields ri d i (l1 ++ l2) =
      ((processFields ri d i l1).1 ++ (processFields ri d i l2).1,
       (processFields ri d i l1).2 + (processFields ri d i l2).2) := by
  induction l1 with
  | nil => simp [processFields]
  | cons g rest ih =>
    rw [List.cons_append, processFields, processFields, ih]
    rcases processField ri d i g with _ | _ | e | ⟨fd, n⟩ <;>
      simp [appendOutcome, Nat.add_assoc]

/-- C6: a field whose sampling raises is caught and contributes no field
record and no pixel count to the date; the remaining fields of the date
are processed exactly as they would be on their own, with no retry and
no abort of the date. -/
theorem field_failure_skipped (ri : RunInput) (d i : String)
    (pre post : List FieldFeature) (f : FieldFeature) (e : String)
    (hf : processField ri d i f = .sampleError e) :
    processFields ri d i (pre ++ f :: post) =
      ((processFields ri d i pre).1 ++ (processFields ri d i post).1,
       (processFields ri d i pre).2 + (processFields ri d i post).2) := by
  rw [processFields_append]
  simp [processFields, appendOutcome, hf]

/-- Witness for field_failure_skipped at the example field whose
sampling raises, placed between two successful fields. -/
theorem field_failure_skipped_witness :
    processFields riEx "2026-01-05" "i" ([fEx] ++ fFail :: [fEx]) =
      ((processFields riEx "2026-01-05" "i" [fEx]).1 ++
         (processFields riEx "2026-01-05" "i" [fEx]).1,
       (processFields riEx "2026-01-05" "i" [fEx]).2 +
         (processFields riEx "2026-01-05" "i" [fEx]).2) :=
  field_failure_skipped riEx "2026-01-05" "i" [fEx] [fEx] fFail "HTTPError" (by decide)

/-! The renderer's layers. -/

/-- C8: one layer exists per (kind, date) for exactly the ledger dates
whose cache file exists, a layer defaults to visible exactly when its
date is the last entry of the sorted ledger date list, and distinct
ledger dates yield distinct layers. -/
theorem layers_per_date_visibility (dates : List String)
    (cache : List (String × DateCache)) (kind : IdxKind) (d : String) (s : Bool) :
    (Layer.mk kind d s ∈ buildLayers kind (sortStr dates) cache ↔
       d ∈ dates ∧ (lookupA cache d).isSome = true ∧
         s = decide ((sortStr dates).getLast? = some d)) ∧
    (∀ L ∈ buildLayers kind (sortStr dates) cache,
       L.shown = true → (sortStr dates).getLast? = some L.date) ∧
    (dates.Nodup → (buildLayers kind (sortStr dates) cache).Nodup) := by
  refine ⟨?_, ?_, ?_⟩
  · rw [buildLayers, List.mem_filterMap]
    constructor
    · rintro ⟨a, ha, hfa⟩
      by_cases hs : (lookupA cache a).isSome
      · rw [if_pos hs] at hfa
        simp only [Option.some.injEq, Layer.mk.injEq] at hfa
        obtain ⟨-, rfl, rfl⟩ := hfa
        exact ⟨(List.mem_insertionSort _).1 ha, hs, rfl⟩
      · rw [if_neg hs] at hfa
        cases hfa
    · rintro ⟨hd, hs, rfl⟩
      refine ⟨d, (List.mem_insertionSort _).2 hd, ?_⟩
      rw [if_pos hs]
  · intro L hL hshow
    rw [buildLayers, List.mem_filterMap] at hL
    obtain ⟨a, ha, hfa⟩ := hL
    by_cases hs : (lookupA cache a).isSome
    · rw [if_pos hs] at hfa
      simp only [Option.some.injEq] at hfa
      rw [← hfa] at hshow ⊢
      exact of_decide_eq_true hshow
    · rw [if_neg hs] at hfa
      cases hfa
  · intro hnd
    have hnd2 : (sortStr dates).Nodup :=
      ((List.perm_insertionSort _ dates).nodup_iff).2 hnd
    refine List.Nodup.filterMap ?_ hnd2
    intro a a' b hb hb'
    by_cases h1 : (lookupA cache a).isSome
    · rw [if_pos h1] at hb
      by_cases h2 : (lookupA cache a').isSome
      · rw [if_pos h2] at hb'
        simp only [Option.mem_def, Option.some.injEq] at hb hb'
        rw [← hb'] at hb
        simp only [Layer.mk.injEq] at hb
        exact hb.2.1
      · rw [if_neg h2] at hb'
        cases hb'
    · rw [if_neg h1] at hb
      cases hb

/-- Witness for layers_per_date_visibility at a concrete two-date ledger
with one cached date. -/
theorem layers_per_date_visibility_witness :
    (buildLayers .NDVI (sortStr ["2026-01-05", "2026-01-01"]) [("2026-01-05", dcEx)]).Nodup ∧
    Layer.mk .NDVI "2026-01-05" true ∈
      buildLayers .NDVI (sortStr ["2026-01-05", "2026-01-01"]) [("2026-01-05", dcEx)] :=
  ⟨(layers_per_date_visibility ["2026-01-05", "2026-01-01"] [("2026-01-05", dcEx)]
      .NDVI "2026-01-05" true).2.2 (by decide),
   (layers_per_date_visibility ["2026-01-05", "2026-01-01"] [("2026-01-05", dcEx)]
      .NDVI "2026-01-05" true).1.2 ⟨by decide, by decide, by decide⟩⟩

/-! Ledger pixel counts versus stored pixel records. -/

theorem processField_count (ri : RunInput) (d i : String) (f : FieldFeature) :
    outcomeCount (processField ri d i f) = sampledCount ri d i f := by
  rw [processField, sampledCount]
  by_cases hg : f.gtype ≠ "Polygon"
  · rw [if_pos hg, if_pos hg]; rfl
  · rw [if_neg hg, if_neg hg]
    rcases hs : ri.sample d i f with e | sd
    · rfl
    · rcases sd with _ | feats
      · rfl
      · rcases hr : f.coordinates.head? with _ | ring <;> simp [hr, outcomeCount]

theorem processField_ok_pixels_le (ri : RunInput) (d i : String) (f : FieldFeature)
    (fd : FieldData) (n : Nat) (h : processField ri d i f = .ok fd n) :
    fd.pixels.length ≤ n := by
  rw [processField] at h
  by_cases hg : f.gtype ≠ "Polygon"
  · rw [if_pos hg] at h; cases h
  · rw [if_neg hg] at h
    rcases hs : ri.sample d i f with e | sd <;> rw [hs] at h
    · cases h
    · rcases sd with _ | feats
      · cases h
      · rcases hr : f.coordinates.head? with _ | ring <;> rw [hr] at h
        · cases h
        · injection h with h1 h2
          rw [← h1, ← h2]
          exact List.length_filterMap_le _ _

theorem processFields_snd (ri : RunInput) (d i : String) :
    ∀ l : List FieldFeature,
      (processFields ri d i l).2 = (l.map (sampledCount ri d i)).sum := by
  intro l
  induction l with
  | nil => rfl
  | cons g rest ih =>
    rw [List.map_cons, List.sum_cons, ← processField_count ri d i g, processFields]
    rcases processField ri d i g with _ | _ | e | ⟨fd, n⟩ <;>
      simp [appendOutcome, outcomeCount, ih]

theorem processFields_stored_le (ri : RunInput) (d i : String) :
    ∀ l : List FieldFeature,
      ((processFields ri d i l).1.map (fun fd => fd.pixels.length)).sum ≤
        (processFields ri d i l).2 := by
  intro l
  induction l with
  | nil => exact le_refl 0
  | cons g rest ih =>
    rw [processFields]
    rcases hG : processField ri d i g with _ | _ | e | ⟨fd, n⟩
    · exact ih
    · exact ih
    · exact ih
    · rw [show appendOutcome (FieldOutcome.ok fd n) (processFields ri d i rest) =
        (fd :: (processFields ri d i rest).1, n + (processFields ri d i rest).2) from rfl,
        List.map_cons, List.sum_cons]
      exact Nat.add_le_add (processField_ok_pixels_le ri d i g fd n hG) ih

/-- C10: a processed date's recorded pixel count is the total number of
sampled features over the date's successfully sampled fields, which is
at least — and can strictly exceed — the number of pixel records stored
in the date's cache record (features lacking geometry or properties are
dropped but still counted); the count the ledger records for a processed
date is exactly this total. -/
theorem pixel_count_vs_stored (ri : RunInput) (date idx : String) :
    ((processDate ri date idx).2 = (ri.fieldsInfo.map (sampledCount ri date idx)).sum) ∧
    storedPixels (processDate ri date idx).1 ≤ (processDate ri date idx).2 ∧
    (∀ (st : FS × History) (nds : List String), date ∈ nds →
      lookupA (processDatesFold ri st nds).2.pixel_counts date =
        some (processDate ri date ((lookupA st.2.date_to_index date).getD "")).2) ∧
    (∃ (ri2 : RunInput) (d2 i2 : String),
      storedPixels (processDate ri2 d2 i2).1 < (processDate ri2 d2 i2).2) := by
  refine ⟨processFields_snd ri date idx ri.fieldsInfo,
    processFields_stored_le ri date idx ri.fieldsInfo, ?_, ?_⟩
  · intro st nds
    induction nds generalizing st with
    | nil => intro h; cases h
    | cons d0 rest ih =>
      intro hmem
      rw [processDatesFold]
      by_cases hr : date ∈ rest
      · rw [ih _ hr, stepDate_dti]
      · have hd0 : d0 = date := by
          rcases List.mem_cons.1 hmem with h | h
          · exact h.symm
          · exact absurd h hr
        rw [hd0, fold_pc_not_mem ri date rest _ hr,
          show (stepDate ri st date).2.pixel_counts =
            setA st.2.pixel_counts date
              (processDate ri date ((lookupA st.2.date_to_index date).getD "")).2 from rfl,
          lookupA_setA_self]
  · exact ⟨riEx, "2026-01-05", "i", by decide⟩

/-- Witness for pixel_count_vs_stored: the recorded count for the
example date reaches the ledger's pixel-count map. -/
theorem pixel_count_vs_stored_witness :
    lookupA (processDatesFold riEx (fs0Empty, emptyHistory) ["2026-01-05"]).2.pixel_counts
        "2026-01-05" =
      some (processDate riEx "2026-01-05"
        ((lookupA emptyHistory.date_to_index "2026-01-05").getD "")).2 :=
  (pixel_count_vs_stored riEx "2026-01-05" "").2.2.1 (fs0Empty, emptyHistory)
    ["2026-01-05"] (by decide)

end MugiMap
